import Mathlib

/-
Verification of the SkyCast flight-delay notebook (`src/flight-delay.ipynb`).

The notebook is a linear pandas pipeline: load, clean (scope filter, column
drop, essential-field dropna, median imputation), derive features
(SCHED_DEP_HOUR, IS_WEEKEND, DELAY_LEVEL, DEPARTURE_DELAY_CAPPED), and run
integrity checks (drop_duplicates plus counts of negative distance and
negative departure delay).  Below, each pandas operation used by the claims is
embedded as a Lean function over lists; tables are lists of rows or lists of
optional cells.
-/

namespace SkyCast

/- ## Scheduled-hour extraction

Python source (feature-engineering cell):
  def sched_hour(x):
      x = str(int(x)).zfill(4)
      return int(x[:2])
We embed the decimal string of a natural number as its big-endian digit list
(fuel-based so that the definition is structurally recursive and evaluable by
the kernel), `zfill(4)` as left-padding with zeros to length 4, and `int(x[:2])`
as the value of the first two digits. -/

/-- Big-endian decimal digits of x, with explicit fuel; `fuel = x + 1` always
suffices since x strictly shrinks under division by 10. -/
def digitsBE : ℕ → ℕ → List ℕ
  | 0, _ => []
  | fuel + 1, x => if x < 10 then [x] else digitsBE fuel (x / 10) ++ [x % 10]

/-- The digit list of Python `str(x)` for a natural number x (so `str(0) = "0"`
gives `[0]`). -/
def decimalDigits (x : ℕ) : List ℕ := digitsBE (x + 1) x

/-- Python `s.zfill(4)` on a digit string: left-pad with zeros to length 4. -/
def zfill4 (ds : List ℕ) : List ℕ := List.replicate (4 - ds.length) 0 ++ ds

/-- Python `int(s[:2])` on a digit string of length at least 2. -/
def firstTwo (ds : List ℕ) : ℕ := 10 * ds.getD 0 0 + ds.getD 1 0

/-- The notebook function `sched_hour`: pad the decimal representation to four
digits and return the integer formed by the first two digits.  Note the source
contains no range check and no raise. -/
def sched_hour (x : ℕ) : ℕ := firstTwo (zfill4 (decimalDigits x))

/-- Modelled from the spec: the spec's scheduled-hour extraction, which
"fails with a ValueError if the integer, once padded, does not yield an hour
in [0,23]".  The notebook's `sched_hour` has no such failure path; this
definition exists to state what the spec demands. -/
def schedHourSpec (x : ℕ) : Except String ℕ :=
  let h := firstTwo (zfill4 (decimalDigits x))
  if h ≤ 23 then Except.ok h else Except.error "ValueError"

/- ## Delay-severity bucket

Python source: delay_type = lambda x:((0,1)[x > 5],2)[x > 45], i.e.
if x > 45 then 2 else (if x > 5 then 1 else 0). -/

/-- The notebook lambda `delay_type` on a departure delay in minutes. -/
def delay_type (x : ℚ) : ℕ := if x > 45 then 2 else if x > 5 then 1 else 0

/- ## Column pruning (Cleaner)

Python source (cleaning cell):
  flights.drop(variables_to_remove, axis = 1, inplace = True, errors='ignore')
pandas `drop` raises KeyError when a label is absent unless errors='ignore';
with errors='ignore' it removes the matching columns and keeps the rest in
order.  We embed a table's schema as its list of column names. -/

/-- The literal `variables_to_remove` list of the cleaning cell. -/
def variables_to_remove : List String :=
  ["TAXI_OUT", "TAXI_IN", "WHEELS_ON", "WHEELS_OFF", "YEAR",
   "MONTH", "DAY", "DAY_OF_WEEK", "DATE", "AIR_SYSTEM_DELAY",
   "SECURITY_DELAY", "AIRLINE_DELAY", "LATE_AIRCRAFT_DELAY",
   "WEATHER_DELAY", "DIVERTED", "CANCELLED", "CANCELLATION_REASON",
   "FLIGHT_NUMBER", "TAIL_NUMBER", "AIR_TIME"]

/-- pandas `DataFrame.drop(labels, axis=1, errors=...)` on a schema: with
`errors_ignore = false` a missing label raises KeyError; otherwise the labelled
columns are removed, the others kept in order. -/
def pandasDropColumns (labels : List String) (errors_ignore : Bool)
    (cols : List String) : Except String (List String) :=
  if errors_ignore = false ∧ labels.any (fun l => !cols.contains l) then
    Except.error "KeyError"
  else
    Except.ok (cols.filter (fun c => !labels.contains c))

/-- The Cleaner's column-pruning step exactly as called in the notebook
(errors='ignore'). -/
def cleanerDrop (cols : List String) : Except String (List String) :=
  pandasDropColumns variables_to_remove true cols

/-- The pure result of the pruning step (what `cleanerDrop` always returns). -/
def pruneCols (cols : List String) : List String :=
  cols.filter (fun c => !variables_to_remove.contains c)

/- ## Weekend-flag cell

Python source (feature-engineering cell):
  flights['IS_WEEKEND'] = pd.to_datetime(flights['DATE']).dt.dayofweek >= 5
pandas column access `flights['DATE']` raises KeyError when the schema has no
DATE column; otherwise the cell appends the IS_WEEKEND column. -/

/-- The IS_WEEKEND assignment as a schema transformation: it reads the DATE
column (KeyError when absent) and adds IS_WEEKEND. -/
def weekendFlagStep (cols : List String) : Except String (List String) :=
  if "DATE" ∈ cols then Except.ok (cols ++ ["IS_WEEKEND"])
  else Except.error "KeyError: DATE"

/- ## Essential-field row drop (Cleaner)

Python source (cleaning cell):
  essential = ['AIRLINE', 'ORIGIN_AIRPORT', 'DESTINATION_AIRPORT',
               'SCHEDULED_DEPARTURE', 'DEPARTURE_DELAY']
  flights.dropna(subset=essential, inplace=True)
A raw row is embedded with its five essential cells (plus two representative
non-essential numeric cells), each possibly null. -/

/-- A raw flight row before the essential-field drop; None is a null cell. -/
structure RawFlightRow where
  airline : Option String
  origin : Option String
  dest : Option String
  schedDep : Option ℕ
  depDelay : Option ℚ
  arrDelay : Option ℚ
  distance : Option ℚ
deriving DecidableEq

/-- A row survives `dropna(subset=essential)` iff all five essential cells are
non-null. -/
def hasEssential (r : RawFlightRow) : Bool :=
  r.airline.isSome && r.origin.isSome && r.dest.isSome &&
  r.schedDep.isSome && r.depDelay.isSome

/-- `flights.dropna(subset=essential)`: keep, in order, exactly the rows with
all essential cells non-null. -/
def dropnaEssential (t : List RawFlightRow) : List RawFlightRow :=
  t.filter hasEssential

/-- The three synthetic rows of the spec's end-to-end scenario: only the
second has a null essential field (origin). -/
def exRow1 : RawFlightRow :=
  ⟨some "AA", some "JFK", some "LAX", some 900, some 3, some 5, some 2475⟩

/-- Second synthetic row: origin is null. -/
def exRow2 : RawFlightRow :=
  ⟨some "AA", none, some "LAX", some 930, some 10, some 12, some 2475⟩

/-- Third synthetic row: all essential cells present. -/
def exRow3 : RawFlightRow :=
  ⟨some "AA", some "JFK", some "LAX", some 1000, some 50, some 55, some 2475⟩

/- ## Integrity-check cell

Python source:
  flights = flights.drop_duplicates()
  print("Negative distances:", (flights['DISTANCE'] < 0).sum())
  print("Negative departure delays:", (flights['DEPARTURE_DELAY'] < 0).sum())
pandas drop_duplicates keeps the FIRST occurrence of each duplicated row and
reassigns the result to the table, so the cell both filters the table and
prints the two counts computed over the deduplicated table.  A cleaned row is
embedded with identifying, schedule and numeric cells (all non-null after
cleaning). -/

/-- A cleaned flight row as seen by the integrity cell. -/
structure Row where
  airline : String
  origin : String
  dest : String
  schedDep : ℕ
  depDelay : ℚ
  distance : ℚ
deriving DecidableEq

/-- Helper for drop_duplicates: keep rows not seen before, first occurrence
wins, order preserved. -/
def dropDupSeen {α : Type} [DecidableEq α] : List α → List α → List α
  | _, [] => []
  | seen, x :: xs =>
    if x ∈ seen then dropDupSeen seen xs else x :: dropDupSeen (x :: seen) xs

/-- pandas `DataFrame.drop_duplicates()` (default keep='first'). -/
def drop_duplicates {α : Type} [DecidableEq α] (l : List α) : List α :=
  dropDupSeen [] l

/-- The whole integrity cell: the reassigned (deduplicated) table together
with the two printed counts, computed over the deduplicated table. -/
def integrityCell (t : List Row) : List Row × ℕ × ℕ :=
  let t2 := drop_duplicates t
  (t2, (t2.filter (fun r => decide (r.distance < 0))).length,
       (t2.filter (fun r => decide (r.depDelay < 0))).length)

/-- A concrete cleaned row used in counterexamples and witnesses. -/
def r0 : Row := ⟨"AA", "JFK", "LAX", 900, 3, 2475⟩

/- ## Median imputation (Cleaner)

Python source (cleaning cell):
  for col in flights.select_dtypes(include=[np.number]).columns:
      flights[col] = flights[col].fillna(flights[col].median())
pandas Series.median sorts the non-null values and returns the middle one (the
mean of the two middle ones for an even count, NaN for an empty series, in
which case fillna changes nothing); fillna replaces exactly the null cells.
A numeric column is a list of optional rationals; a non-numeric column is
untouched by the loop. -/

/-- Insert a value into a sorted list of rationals. -/
def insertQ (x : ℚ) : List ℚ → List ℚ
  | [] => [x]
  | y :: ys => if x ≤ y then x :: y :: ys else y :: insertQ x ys

/-- Insertion sort on rationals (the sort underlying pandas median). -/
def sortQ : List ℚ → List ℚ
  | [] => []
  | x :: xs => insertQ x (sortQ xs)

/-- pandas Series.median over the non-null values: none for an empty series,
the middle order statistic for an odd count, the mean of the two middle order
statistics for an even count. -/
def medianQ (xs : List ℚ) : Option ℚ :=
  let s := sortQ xs
  let n := s.length
  if n = 0 then none
  else if n % 2 = 1 then some (s.getD (n / 2) 0)
  else some ((s.getD (n / 2 - 1) 0 + s.getD (n / 2) 0) / 2)

/-- `series.fillna(series.median())` on one numeric column: replace every null
cell by the median of the non-null cells; when the column is all-null the
median is NaN and fillna leaves the column unchanged. -/
def fillnaMedian (col : List (Option ℚ)) : List (Option ℚ) :=
  match medianQ (col.filterMap id) with
  | none => col
  | some m => col.map (fun c => some (c.getD m))

/-- A table as seen by the imputation loop: its numeric columns and its
non-numeric (string) columns. -/
structure NumTable where
  numCols : List (List (Option ℚ))
  strCols : List (List (Option String))

/-- The imputation loop: fillna(median) on every numeric column, non-numeric
columns untouched. -/
def imputeNumeric (t : NumTable) : NumTable :=
  ⟨t.numCols.map fillnaMedian, t.strCols⟩

/- ## Delay capping (outlier handling cell)

Python source:
  delay_cap = flights['DEPARTURE_DELAY'].mean() + 3*flights['DEPARTURE_DELAY'].std()
  flights['DEPARTURE_DELAY_CAPPED'] = np.where(
      flights['DEPARTURE_DELAY'] > delay_cap, delay_cap, flights['DEPARTURE_DELAY'])
pandas Series.std defaults to ddof=1: the SAMPLE standard deviation
sqrt(sum((x-mean)^2)/(n-1)), not the population one (division by n).  The
column is embedded as a list of reals (exact arithmetic in place of float64);
np.where(c > cap, cap, c) is the row-wise conditional. -/

/-- pandas Series.mean: sum divided by length. -/
noncomputable def meanR (xs : List ℝ) : ℝ := xs.sum / xs.length

/-- The variance computed by pandas Series.std's default ddof=1: squared
deviations from the mean divided by (n - 1). -/
noncomputable def sampleVar (xs : List ℝ) : ℝ :=
  (xs.map (fun x => (x - meanR xs) ^ 2)).sum / ((xs.length : ℝ) - 1)

/-- pandas Series.std() (ddof=1). -/
noncomputable def stdR (xs : List ℝ) : ℝ := Real.sqrt (sampleVar xs)

/-- The notebook's delay_cap: mean + 3 * std of the departure-delay column. -/
noncomputable def delay_cap (xs : List ℝ) : ℝ := meanR xs + 3 * stdR xs

/-- The DEPARTURE_DELAY_CAPPED assignment:
np.where(d > delay_cap, delay_cap, d), row-wise over the column. -/
noncomputable def capDelays (xs : List ℝ) : List ℝ :=
  xs.map (fun d => if d > delay_cap xs then delay_cap xs else d)

/-- Modelled from the spec: the population variance (division by n) that the
spec's wording attributes to the capping threshold. -/
noncomputable def popVar (xs : List ℝ) : ℝ :=
  (xs.map (fun x => (x - meanR xs) ^ 2)).sum / (xs.length : ℝ)

/-- Modelled from the spec: the population standard deviation. -/
noncomputable def popStd (xs : List ℝ) : ℝ := Real.sqrt (popVar xs)

/-- Modelled from the spec: the threshold mean + 3 * population std that the
spec says the capped column is clamped to. -/
noncomputable def specCap (xs : List ℝ) : ℝ := meanR xs + 3 * popStd xs

/-- Concrete departure-delay column used to separate the sample and population
standard deviations: fifteen on-time flights and one delayed by 16 minutes. -/
def L16 : List ℝ := [0, 0, 0, 0, 0, 0, 0, 0, 0, 0, 0, 0, 0, 0, 0, 16]

/-- The column obtained from L16 by one application of capping. -/
def M16 : List ℝ := [0, 0, 0, 0, 0, 0, 0, 0, 0, 0, 0, 0, 0, 0, 0, 13]

end SkyCast

namespace SkyCast

/-- C5: the severity bucket is 0 for delay ≤ 5, 1 for 5 < delay ≤ 45, 2 for
delay > 45, with the boundary values 5.0 ↦ 0, 5.01 ↦ 1, 45.0 ↦ 1,
45.01 ↦ 2. -/
theorem delay_type_buckets :
    (∀ d : ℚ, d ≤ 5 → delay_type d = 0) ∧
    (∀ d : ℚ, 5 < d → d ≤ 45 → delay_type d = 1) ∧
    (∀ d : ℚ, 45 < d → delay_type d = 2) ∧
    delay_type 5 = 0 ∧ delay_type (501/100) = 1 ∧
    delay_type 45 = 1 ∧ delay_type (4501/100) = 2 := by
  refine ⟨?_, ?_, ?_, by norm_num [delay_type], by norm_num [delay_type],
    by norm_num [delay_type], by norm_num [delay_type]⟩
  · intro d hd
    unfold delay_type
    rw [if_neg (by linarith), if_neg (by linarith)]
  · intro d hd1 hd2
    unfold delay_type
    rw [if_neg (by linarith), if_pos hd1]
  · intro d hd
    unfold delay_type
    rw [if_pos hd]

/-- Witness for C5 at concrete delays 3, 10 and 50. -/
theorem delay_type_buckets_witness :
    delay_type 3 = 0 ∧ delay_type 10 = 1 ∧ delay_type 50 = 2 :=
  ⟨delay_type_buckets.1 3 (by norm_num),
   delay_type_buckets.2.1 10 (by norm_num) (by norm_num),
   delay_type_buckets.2.2.1 50 (by norm_num)⟩

/-- The digit list computed by digitsBE does not depend on the fuel once the
fuel exceeds the input. -/
lemma digitsBE_fuel : ∀ (f g x : ℕ), x < f → x < g → digitsBE f x = digitsBE g x := by
  intro f
  induction f with
  | zero => intro g x hf _; omega
  | succ f ih =>
    intro g x hf hg
    cases g with
    | zero => omega
    | succ g =>
      by_cases h : x < 10
      · simp [digitsBE, h]
      · simp only [digitsBE, if_neg h]
        have hx : x / 10 < x := Nat.div_lt_self (by omega) (by norm_num)
        rw [ih g (x / 10) (by omega) (by omega)]

/-- Python str of a one-digit number is that digit. -/
lemma decimalDigits_small (x : ℕ) (h : x < 10) : decimalDigits x = [x] := by
  simp [decimalDigits, digitsBE, h]

/-- Python str of a number with at least two digits: the digits of x / 10
followed by the last digit. -/
lemma decimalDigits_step (x : ℕ) (h : 10 ≤ x) :
    decimalDigits x = decimalDigits (x / 10) ++ [x % 10] := by
  have hstep : digitsBE (x + 1) x = digitsBE x (x / 10) ++ [x % 10] := by
    simp only [digitsBE, if_neg (by omega : ¬ x < 10)]
  have hx : x / 10 < x := Nat.div_lt_self (by omega) (by norm_num)
  unfold decimalDigits
  rw [hstep]
  congr 1
  exact digitsBE_fuel x (x / 10 + 1) (x / 10) (by omega) (by omega)

/-- On every input below 10000, sched_hour returns x / 100. -/
lemma sched_hour_eq_div (x : ℕ) (h : x < 10000) : sched_hour x = x / 100 := by
  by_cases h1 : x < 10
  · have d1 := decimalDigits_small x h1
    simp [sched_hour, firstTwo, zfill4, d1]
    omega
  · by_cases h2 : x < 100
    · have d1 := decimalDigits_step x (by omega)
      have d2 := decimalDigits_small (x / 10) (by omega)
      simp [sched_hour, firstTwo, zfill4, d1, d2]
      omega
    · by_cases h3 : x < 1000
      · have d1 := decimalDigits_step x (by omega)
        have d2 := decimalDigits_step (x / 10) (by omega)
        have d3 := decimalDigits_small (x / 10 / 10) (by omega)
        simp [sched_hour, firstTwo, zfill4, d1, d2, d3]
        omega
      · have d1 := decimalDigits_step x (by omega)
        have d2 := decimalDigits_step (x / 10) (by omega)
        have d3 := decimalDigits_step (x / 10 / 10) (by omega)
        have d4 := decimalDigits_small (x / 10 / 10 / 10) (by omega)
        simp [sched_hour, firstTwo, zfill4, d1, d2, d3, d4]
        omega

/-- C6: on every valid HHMM input (x ≤ 9999), sched_hour returns the integer
formed by the first two 4-left-padded decimal digits, namely x / 100; in
particular 0 ↦ 0, 5 ↦ 0, 930 ↦ 9, 1730 ↦ 17, 2359 ↦ 23. -/
theorem sched_hour_valid :
    (∀ x : ℕ, x < 10000 → sched_hour x = x / 100) ∧
    sched_hour 0 = 0 ∧ sched_hour 5 = 0 ∧ sched_hour 930 = 9 ∧
    sched_hour 1730 = 17 ∧ sched_hour 2359 = 23 :=
  ⟨sched_hour_eq_div, rfl, rfl, rfl, rfl, rfl⟩

/-- Witness for C6 at the concrete input 1730. -/
theorem sched_hour_valid_witness : sched_hour 1730 = 1730 / 100 :=
  sched_hour_valid.1 1730 (by norm_num)

/-- C1 counterexample: on input 9999 the notebook's sched_hour does not fail;
it returns the value 99 (the first two padded digits, outside [0,23]), whereas
the spec's checked extraction would signal ValueError. -/
theorem sched_hour_9999_counterexample :
    sched_hour 9999 = 99 ∧ 23 < sched_hour 9999 ∧
    schedHourSpec 9999 = Except.error "ValueError" :=
  ⟨rfl, by norm_num [sched_hour_eq_div 9999 (by norm_num)], rfl⟩

/-- C1 amended: sched_hour performs no range validation; on every input whose
first two padded digits exceed 23 it returns that out-of-range hour instead of
raising. -/
theorem sched_hour_no_range_check (x : ℕ) (h1 : x < 10000) (h2 : 23 < x / 100) :
    sched_hour x = x / 100 ∧ 23 < sched_hour x := by
  refine ⟨sched_hour_eq_div x h1, ?_⟩
  rw [sched_hour_eq_div x h1]
  exact h2

/-- Witness for the amended C1 at input 9999. -/
theorem sched_hour_no_range_check_witness :
    sched_hour 9999 = 9999 / 100 ∧ 23 < sched_hour 9999 :=
  sched_hour_no_range_check 9999 (by norm_num) (by norm_num)

/-- C9: the Cleaner's pruning never errors (errors='ignore'), and pruning an
already-pruned schema is a no-op: it returns the pruned schema unchanged. -/
theorem cleanerDrop_idempotent :
    (∀ cols, cleanerDrop cols = Except.ok (pruneCols cols)) ∧
    (∀ cols, pruneCols (pruneCols cols) = pruneCols cols) ∧
    (∀ cols, cleanerDrop (pruneCols cols) = Except.ok (pruneCols cols)) := by
  have hok : ∀ cols, cleanerDrop cols = Except.ok (pruneCols cols) := by
    intro cols
    simp [cleanerDrop, pandasDropColumns, pruneCols]
  have hidem : ∀ cols, pruneCols (pruneCols cols) = pruneCols cols := by
    intro cols
    simp [pruneCols, List.filter_filter]
  refine ⟨hok, hidem, fun cols => ?_⟩
  rw [hok (pruneCols cols), hidem cols]

/-- Every element of dropDupSeen seen l avoids seen. -/
lemma dropDupSeen_not_mem_seen {α : Type} [DecidableEq α] :
    ∀ (seen l : List α) (x : α), x ∈ dropDupSeen seen l → x ∉ seen := by
  intro seen l
  induction l generalizing seen with
  | nil => intro x hx; simp [dropDupSeen] at hx
  | cons y ys ih =>
    intro x hx
    simp only [dropDupSeen] at hx
    by_cases h : y ∈ seen
    · rw [if_pos h] at hx
      exact ih seen x hx
    · rw [if_neg h] at hx
      rcases List.mem_cons.1 hx with rfl | hx2
      · exact h
      · intro hxs
        exact ih (y :: seen) x hx2 (List.mem_cons_of_mem y hxs)

/-- dropDupSeen returns a sublist of its input (order preserved, rows only
removed). -/
lemma dropDupSeen_sublist {α : Type} [DecidableEq α] :
    ∀ (seen l : List α), (dropDupSeen seen l).Sublist l := by
  intro seen l
  induction l generalizing seen with
  | nil => simp [dropDupSeen]
  | cons y ys ih =>
    simp only [dropDupSeen]
    by_cases h : y ∈ seen
    · rw [if_pos h]
      exact (ih seen).cons y
    · rw [if_neg h]
      exact (ih (y :: seen)).cons₂ y

/-- dropDupSeen returns a duplicate-free list. -/
lemma dropDupSeen_nodup {α : Type} [DecidableEq α] :
    ∀ (seen l : List α), (dropDupSeen seen l).Nodup := by
  intro seen l
  induction l generalizing seen with
  | nil => simp [dropDupSeen]
  | cons y ys ih =>
    simp only [dropDupSeen]
    by_cases h : y ∈ seen
    · rw [if_pos h]
      exact ih seen
    · rw [if_neg h]
      refine List.nodup_cons.2 ⟨?_, ih (y :: seen)⟩
      intro hy
      exact dropDupSeen_not_mem_seen (y :: seen) ys y hy (List.mem_cons_self y seen)

/-- dropDupSeen is the identity on duplicate-free lists disjoint from seen. -/
lemma dropDupSeen_id {α : Type} [DecidableEq α] :
    ∀ (seen l : List α), l.Nodup → (∀ x ∈ l, x ∉ seen) → dropDupSeen seen l = l := by
  intro seen l
  induction l generalizing seen with
  | nil => intro _ _; rfl
  | cons y ys ih =>
    intro hnd hdisj
    simp only [dropDupSeen]
    rw [if_neg (hdisj y (List.mem_cons_self y ys))]
    congr 1
    refine ih (y :: seen) (List.nodup_cons.1 hnd).2 ?_
    intro x hx hmem
    rcases List.mem_cons.1 hmem with rfl | hseen
    · exact (List.nodup_cons.1 hnd).1 hx
    · exact hdisj x (List.mem_cons_of_mem y hx) hseen

/-- C2 counterexample: on the two-row table [r0, r0] the integrity cell
returns the table [r0], which differs from its input — the cell filters
duplicate rows rather than leaving the table identical. -/
theorem integrityCell_mutates_counterexample :
    (integrityCell [r0, r0]).1 = [r0] ∧ [r0] ≠ [r0, r0] := by
  constructor
  · simp [integrityCell, drop_duplicates, dropDupSeen]
  · simp

/-- C2 amended: the integrity cell reassigns the table to its deduplication
(first occurrences kept, order preserved, no duplicates left, identity exactly
when the input had no duplicate rows) and reports the negative-distance and
negative-departure-delay counts computed over the deduplicated table; it never
reports a duplicate count. -/
theorem integrityCell_spec :
    (∀ t, (integrityCell t).1 = drop_duplicates t) ∧
    (∀ t, ((integrityCell t).1).Sublist t) ∧
    (∀ t, ((integrityCell t).1).Nodup) ∧
    (∀ t : List Row, t.Nodup → (integrityCell t).1 = t) ∧
    (∀ t, (integrityCell t).2.1 =
        ((drop_duplicates t).filter (fun r => decide (r.distance < 0))).length ∧
      (integrityCell t).2.2 =
        ((drop_duplicates t).filter (fun r => decide (r.depDelay < 0))).length) := by
  refine ⟨fun t => rfl, fun t => dropDupSeen_sublist [] t,
    fun t => dropDupSeen_nodup [] t, ?_, fun t => ⟨rfl, rfl⟩⟩
  intro t hnd
  exact dropDupSeen_id [] t hnd (by simp)

/-- Witness for the amended C2: on the duplicate-free table [r0] the cell
returns the table unchanged. -/
theorem integrityCell_spec_witness : (integrityCell [r0]).1 = [r0] :=
  integrityCell_spec.2.2.2.1 [r0] (List.nodup_singleton r0)

/-- C7: the essential-field drop keeps, in order, exactly the rows whose five
essential cells (airline, origin, destination, scheduled departure, departure
delay) are all non-null; on the spec's three synthetic rows it removes exactly
the second one (null origin). -/
theorem dropna_essential_spec :
    (∀ t, (dropnaEssential t).Sublist t) ∧
    (∀ t r, r ∈ dropnaEssential t →
      r.airline.isSome = true ∧ r.origin.isSome = true ∧ r.dest.isSome = true ∧
      r.schedDep.isSome = true ∧ r.depDelay.isSome = true) ∧
    (∀ t r, r ∈ t → hasEssential r = true → r ∈ dropnaEssential t) ∧
    dropnaEssential [exRow1, exRow2, exRow3] = [exRow1, exRow3] := by
  refine ⟨fun t => List.filter_sublist t, ?_, ?_, by rfl⟩
  · intro t r hr
    have hf := List.of_mem_filter hr
    simp only [hasEssential, Bool.and_eq_true] at hf
    tauto
  · intro t r hrt hre
    exact List.mem_filter.2 ⟨hrt, hre⟩

/-- Witness for C7: the first synthetic row is kept and all its essential
cells are non-null. -/
theorem dropna_essential_spec_witness :
    exRow1 ∈ dropnaEssential [exRow1, exRow2, exRow3] ∧
    exRow1.airline.isSome = true ∧ exRow1.origin.isSome = true ∧
    exRow1.dest.isSome = true ∧ exRow1.schedDep.isSome = true ∧
    exRow1.depDelay.isSome = true := by
  have hmem : exRow1 ∈ dropnaEssential [exRow1, exRow2, exRow3] :=
    dropna_essential_spec.2.2.1 [exRow1, exRow2, exRow3] exRow1
      (List.mem_cons_self exRow1 [exRow2, exRow3]) rfl
  exact ⟨hmem, dropna_essential_spec.2.1 [exRow1, exRow2, exRow3] exRow1 hmem⟩

/-- C8: the cleaning cell removes the DATE column (DATE is in
variables_to_remove), so the subsequent IS_WEEKEND cell, which reads
flights['DATE'], fails with a KeyError on every schema that went through
pruning — the weekend flag is never computed. -/
theorem weekend_cell_keyerror (cols : List String) :
    weekendFlagStep (pruneCols cols) = Except.error "KeyError: DATE" := by
  have h : "DATE" ∉ pruneCols cols := by
    intro hmem
    have hf := List.of_mem_filter hmem
    simp [variables_to_remove] at hf
  simp [weekendFlagStep, h]

/-- Reading a mapped list at an in-range index gives the image of the entry
there, whatever the defaults. -/
lemma getD_map_of_lt {α β : Type} (f : α → β) (l : List α) (i : ℕ)
    (h : i < l.length) (d : β) (d0 : α) : (l.map f).getD i d = f (l.getD i d0) := by
  induction l generalizing i with
  | nil => simp at h
  | cons a as ih =>
    cases i with
    | zero => simp
    | succ n =>
      simp only [List.map_cons, List.getD_cons_succ]
      exact ih n (by simpa using h)

/-- fillnaMedian keeps the column length. -/
lemma fillnaMedian_length (col : List (Option ℚ)) :
    (fillnaMedian col).length = col.length := by
  unfold fillnaMedian
  cases medianQ (col.filterMap id) <;> simp

/-- fillnaMedian leaves every non-null cell unchanged. -/
lemma fillnaMedian_preserves (col : List (Option ℚ)) (i : ℕ) (v : ℚ)
    (h : col.getD i none = some v) : (fillnaMedian col).getD i none = some v := by
  have hi : i < col.length := by
    by_contra hge
    rw [List.getD_eq_default _ _ (le_of_not_lt hge)] at h
    exact Option.noConfusion h
  unfold fillnaMedian
  cases medianQ (col.filterMap id) with
  | none => exact h
  | some m =>
    rw [getD_map_of_lt _ _ _ hi none none, h]
    rfl

/-- fillnaMedian fills every null cell with the median of the non-null
cells whenever that median exists. -/
lemma fillnaMedian_fills (col : List (Option ℚ)) (i : ℕ) (m : ℚ)
    (hi : i < col.length) (h : col.getD i none = none)
    (hm : medianQ (col.filterMap id) = some m) :
    (fillnaMedian col).getD i none = some m := by
  unfold fillnaMedian
  rw [hm, getD_map_of_lt _ _ _ hi none none, h]
  rfl

/-- C10: the imputation loop keeps non-numeric columns and the column/row
counts intact, leaves every non-null cell of a numeric column unchanged, and
replaces exactly the null cells of each numeric column by that column's
median over its non-null cells. -/
theorem impute_median_frame :
    (∀ t, (imputeNumeric t).strCols = t.strCols) ∧
    (∀ t, (imputeNumeric t).numCols.length = t.numCols.length) ∧
    (∀ t (j : ℕ), j < t.numCols.length →
      (imputeNumeric t).numCols.getD j [] = fillnaMedian (t.numCols.getD j [])) ∧
    (∀ col : List (Option ℚ), (fillnaMedian col).length = col.length) ∧
    (∀ (col : List (Option ℚ)) (i : ℕ) (v : ℚ), col.getD i none = some v →
      (fillnaMedian col).getD i none = some v) ∧
    (∀ (col : List (Option ℚ)) (i : ℕ) (m : ℚ), i < col.length →
      col.getD i none = none → medianQ (col.filterMap id) = some m →
      (fillnaMedian col).getD i none = some m) := by
  refine ⟨fun t => rfl, fun t => by simp [imputeNumeric], ?_,
    fillnaMedian_length, fillnaMedian_preserves, fillnaMedian_fills⟩
  intro t j hj
  exact getD_map_of_lt fillnaMedian t.numCols j hj [] []

/-- The capped column has the same length as the raw column. -/
lemma capDelays_length (xs : List ℝ) : (capDelays xs).length = xs.length := by
  simp [capDelays]

/-- np.where(d > cap, cap, d) is min d cap, row-wise. -/
lemma capDelays_eq_map_min (xs : List ℝ) :
    capDelays xs = xs.map (fun d => min d (delay_cap xs)) := by
  unfold capDelays
  have hf : (fun d => if d > delay_cap xs then delay_cap xs else d) =
      (fun d : ℝ => min d (delay_cap xs)) := by
    funext d
    rw [min_def]
    by_cases h : d > delay_cap xs
    · rw [if_pos h, if_neg (by linarith)]
    · rw [if_neg h, if_pos (by linarith)]
  rw [hf]

/-- Capping never increases a row's value. -/
lemma capDelays_getD_le (xs : List ℝ) (i : ℕ) :
    (capDelays xs).getD i 0 ≤ xs.getD i 0 := by
  by_cases hi : i < xs.length
  · rw [capDelays, getD_map_of_lt _ _ _ hi 0 0]
    by_cases h : xs.getD i 0 > delay_cap xs
    · rw [if_pos h]
      linarith
    · rw [if_neg h]
  · have h1 := le_of_not_lt hi
    rw [show xs.getD i 0 = 0 from List.getD_eq_default _ _ h1,
      show (capDelays xs).getD i 0 = 0 from
        List.getD_eq_default _ _ (by simpa [capDelays] using h1)]

/-- Capping fixes every row whose value is at most the threshold. -/
lemma capDelays_getD_eq_of_le (xs : List ℝ) (i : ℕ)
    (h : xs.getD i 0 ≤ delay_cap xs) :
    (capDelays xs).getD i 0 = xs.getD i 0 := by
  by_cases hi : i < xs.length
  · rw [capDelays, getD_map_of_lt _ _ _ hi 0 0, if_neg (by linarith)]
  · have h1 := le_of_not_lt hi
    rw [show xs.getD i 0 = 0 from List.getD_eq_default _ _ h1,
      show (capDelays xs).getD i 0 = 0 from
        List.getD_eq_default _ _ (by simpa [capDelays] using h1)]

/-- The mean of the concrete column L16 is 1. -/
lemma meanR_L16 : meanR L16 = 1 := by
  norm_num [meanR, L16]

/-- The ddof=1 variance of L16 is 16 (so its std is 4). -/
lemma sampleVar_L16 : sampleVar L16 = 16 := by
  rw [sampleVar]
  simp only [meanR_L16]
  norm_num [L16]

/-- The pandas std of L16 is 4. -/
lemma stdR_L16 : stdR L16 = 4 := by
  rw [stdR, sampleVar_L16, show (16:ℝ) = 4 ^ 2 by norm_num,
    Real.sqrt_sq (by norm_num : (0:ℝ) ≤ 4)]

/-- The notebook's capping threshold on L16 is 1 + 3 * 4 = 13. -/
lemma delay_cap_L16 : delay_cap L16 = 13 := by
  rw [delay_cap, meanR_L16, stdR_L16]
  norm_num

/-- Capping L16 caps the delayed row to 13 and fixes the rest. -/
lemma capDelays_L16_eq : capDelays L16 = M16 := by
  rw [capDelays]
  simp only [delay_cap_L16]
  norm_num [L16, M16]

/-- The capped value of the delayed row of L16. -/
lemma capDelays_L16_getD : (capDelays L16).getD 15 0 = 13 := by
  rw [capDelays_L16_eq]
  rfl

/-- The population variance of L16 is 15 (so the spec's threshold is
1 + 3 * sqrt 15, strictly below the code's 13). -/
lemma popVar_L16 : popVar L16 = 15 := by
  rw [popVar]
  simp only [meanR_L16]
  norm_num [L16]

/-- The mean of the once-capped column M16. -/
lemma meanR_M16 : meanR M16 = 13 / 16 := by
  norm_num [meanR, M16]

/-- The ddof=1 variance of M16. -/
lemma sampleVar_M16 : sampleVar M16 = 169 / 16 := by
  rw [sampleVar]
  simp only [meanR_M16]
  norm_num [M16]

/-- The pandas std of M16. -/
lemma stdR_M16 : stdR M16 = 13 / 4 := by
  rw [stdR, sampleVar_M16, show (169 / 16 : ℝ) = (13 / 4) ^ 2 by norm_num,
    Real.sqrt_sq (by norm_num : (0:ℝ) ≤ 13 / 4)]

/-- The capping threshold recomputed on the once-capped column M16 drops to
169/16 < 13. -/
lemma delay_cap_M16 : delay_cap M16 = 169 / 16 := by
  rw [delay_cap, meanR_M16, stdR_M16]
  norm_num

/-- C3 amended: with the threshold mean + 3 * SAMPLE std (pandas ddof=1), the
capped column is row-wise min(delay, threshold), never exceeds the raw value,
and agrees with it on every row at most the threshold. -/
theorem capDelays_sample_std_spec :
    (∀ xs : List ℝ, capDelays xs = xs.map (fun d => min d (delay_cap xs))) ∧
    (∀ (xs : List ℝ) (i : ℕ), (capDelays xs).getD i 0 ≤ xs.getD i 0) ∧
    (∀ (xs : List ℝ) (i : ℕ), xs.getD i 0 ≤ delay_cap xs →
      (capDelays xs).getD i 0 = xs.getD i 0) :=
  ⟨capDelays_eq_map_min, capDelays_getD_le, capDelays_getD_eq_of_le⟩

/-- Witness for the amended C3 on L16 at row 0 (value 0 ≤ threshold 13). -/
theorem capDelays_sample_std_spec_witness :
    (capDelays L16).getD 0 0 = L16.getD 0 0 := by
  refine capDelays_sample_std_spec.2.2 L16 0 ?_
  rw [delay_cap_L16]
  norm_num [L16]

/-- C3 counterexample: on the column L16 the delayed row (value 16) is capped
by the code to 13 = mean + 3 * sample std, while min(16, mean + 3 * population
std) = 1 + 3 * sqrt 15 < 13 — the code's threshold does not use the population
standard deviation. -/
theorem capping_population_std_counterexample :
    L16.getD 15 0 = 16 ∧ (capDelays L16).getD 15 0 = 13 ∧
    min (L16.getD 15 0) (specCap L16) < 13 := by
  refine ⟨rfl, capDelays_L16_getD, ?_⟩
  have hlt : Real.sqrt 15 < 4 := by
    have h4 : (4:ℝ) = Real.sqrt 16 := by
      rw [show (16:ℝ) = 4 ^ 2 by norm_num, Real.sqrt_sq (by norm_num : (0:ℝ) ≤ 4)]
    rw [h4]
    exact Real.sqrt_lt_sqrt (by norm_num) (by norm_num)
  have hspec : specCap L16 < 13 := by
    rw [specCap, meanR_L16, popStd, popVar_L16]
    linarith
  calc min (L16.getD 15 0) (specCap L16) ≤ specCap L16 := min_le_right _ _
    _ < 13 := hspec

/-- C4 amended: a second application of capping (recomputing mean and std on
the already-capped column) yields a value ≤ the single-capped value on every
row — the second pass can only lower values further. -/
theorem capDelays_twice_le (xs : List ℝ) (i : ℕ) :
    (capDelays (capDelays xs)).getD i 0 ≤ (capDelays xs).getD i 0 :=
  capDelays_getD_le (capDelays xs) i

/-- C4 counterexample: on L16, the single-capped value of the delayed row is
13, but capping a second time (threshold recomputed on the capped column)
lowers it to 169/16 < 13, refuting double-capped ≥ single-capped. -/
theorem capping_twice_counterexample :
    (capDelays (capDelays L16)).getD 15 0 = 169 / 16 ∧
    (capDelays L16).getD 15 0 = 13 ∧ ((169:ℝ) / 16) < 13 := by
  refine ⟨?_, capDelays_L16_getD, by norm_num⟩
  rw [capDelays_L16_eq]
  have hi : (15:ℕ) < M16.length := by norm_num [M16]
  rw [capDelays, getD_map_of_lt _ _ _ hi 0 0,
    show M16.getD 15 0 = 13 from rfl, delay_cap_M16, if_pos (by norm_num)]

/-- Witness for C10 on the concrete column [some 1, null, some 3]: the null
cell is filled with the median 2 of the non-null cells, the cell holding 1 is
untouched, and the length stays 3. -/
theorem impute_median_frame_witness :
    (fillnaMedian [some 1, none, some 3]).getD 1 none = some 2 ∧
    (fillnaMedian [some 1, none, some 3]).getD 0 none = some 1 ∧
    (fillnaMedian [some 1, none, some 3]).length = 3 := by
  refine ⟨impute_median_frame.2.2.2.2.2 [some 1, none, some 3] 1 2 (by norm_num)
      rfl ?_,
    impute_median_frame.2.2.2.2.1 [some 1, none, some 3] 0 1 rfl,
    impute_median_frame.2.2.2.1 [some 1, none, some 3]⟩
  norm_num [medianQ, sortQ, insertQ, List.filterMap]

end SkyCast
